import Mathlib

/-!
Verification of the recipe recommendation engine
(`RecipeRecommendationEngine` in the TypeScript source, mirrored by the
`GET /api/recipes/:id/recommendations` route in `server.js`).

Modelling conventions:
* JavaScript numbers are modelled as exact rationals (`ℚ`).
* A JavaScript `Set` built from an array of strings is modelled by
  `jsSetList`, the list of first occurrences in insertion order (JS `Set`
  iteration order); its length is the `Set`'s `size`.
* `Array.prototype.sort` with comparator `(a, b) => b.score - a.score` is a
  stable descending sort (ES2019 guarantees stability), modelled by
  `List.insertionSort` with the relation `b.score ≤ a.score`, which inserts
  before equal elements and is therefore stable.
* `Array.prototype.slice(0, end)` is modelled by `jsSlice`, including the
  negative-`end` clamping semantics `max(length + end, 0)`.
-/

/-- The `Recipe` interface from the source (`export interface Recipe`).
Optional fields are `Option String`; only `id`, `cuisine`, `category`,
`tags` and `ingredients` participate in the engine. -/
structure Recipe where
  id : String
  name : String
  ingredients : List String
  instructions : List String
  cuisine : String
  category : String
  image_url : String
  youtube : Option String
  source : Option String
  tags : List String
deriving DecidableEq

/-- The `RecommendationScore` interface from the source. -/
structure RecommendationScore where
  recipe : Recipe
  score : ℚ
  reasons : List String
deriving DecidableEq

/-- Models JavaScript `String.prototype.toLowerCase()` character-wise
(the engine only applies it to tag/ingredient strings). Defined over the
character data so that it evaluates by `decide`. -/
def jsToLower (s : String) : String := String.mk (s.data.map Char.toLower)

/-- JS `new Set(l)` as a list: first occurrences of `l` in insertion order.
Its length is the set's `size`; membership is set membership. -/
def jsSetList (l : List String) : List String :=
  l.foldl (fun acc x => if x ∈ acc then acc else acc ++ [x]) []

namespace RecipeRecommendationEngine

/-- The set of lower-cased tags of a recipe:
`new Set(recipe.tags.map((tag) => tag.toLowerCase()))`. -/
def lowerTags (r : Recipe) : List String :=
  jsSetList (r.tags.map jsToLower)

/-- The set of lower-cased ingredients of a recipe:
`new Set(recipe.ingredients.map((ing) => ing.toLowerCase()))`. -/
def lowerIngredients (r : Recipe) : List String :=
  jsSetList (r.ingredients.map jsToLower)

/-- Ordered intersection of the lower-cased tag sets:
`[...targetTags].filter((tag) => candidateTags.has(tag))`.
This same expression is `tagIntersection` in `calculateSimilarity` and
`commonTags` in `generateReasons`. -/
def commonTags (targetRecipe candidateRecipe : Recipe) : List String :=
  (lowerTags targetRecipe).filter
    (fun tag => decide (tag ∈ lowerTags candidateRecipe))

/-- Ordered intersection of the lower-cased ingredient sets. -/
def commonIngredients (targetRecipe candidateRecipe : Recipe) : List String :=
  (lowerIngredients targetRecipe).filter
    (fun ing => decide (ing ∈ lowerIngredients candidateRecipe))

/-- Union of the lower-cased tag sets:
`new Set([...targetTags, ...candidateTags])`. -/
def tagUnionList (targetRecipe candidateRecipe : Recipe) : List String :=
  jsSetList (lowerTags targetRecipe ++ lowerTags candidateRecipe)

/-- Union of the lower-cased ingredient sets. -/
def ingredientUnionList (targetRecipe candidateRecipe : Recipe) : List String :=
  jsSetList (lowerIngredients targetRecipe ++ lowerIngredients candidateRecipe)

/-- `RecipeRecommendationEngine.calculateSimilarity`: weighted sum of the
cuisine match (0.4), category match (0.3), tag Jaccard overlap (0.2, guarded
by `tagUnion.size > 0`) and ingredient Jaccard overlap (0.1, guarded by
`ingredientUnion.size > 0`). The four `score += w` statements of the source
are rendered as four addends. -/
def calculateSimilarity (targetRecipe candidateRecipe : Recipe) : ℚ :=
  (if targetRecipe.cuisine = candidateRecipe.cuisine then (0.4 : ℚ) else 0)
  + (if targetRecipe.category = candidateRecipe.category then (0.3 : ℚ) else 0)
  + (if 0 < (tagUnionList targetRecipe candidateRecipe).length then
      (((commonTags targetRecipe candidateRecipe).length : ℚ) /
        ((tagUnionList targetRecipe candidateRecipe).length : ℚ)) * 0.2
    else 0)
  + (if 0 < (ingredientUnionList targetRecipe candidateRecipe).length then
      (((commonIngredients targetRecipe candidateRecipe).length : ℚ) /
        ((ingredientUnionList targetRecipe candidateRecipe).length : ℚ)) * 0.1
    else 0)

/-- `RecipeRecommendationEngine.generateReasons`: the four conditional
`reasons.push(...)` statements, then the fallback
`reasons.length > 0 ? reasons : ["Similar recipe"]`. -/
def generateReasons (targetRecipe candidateRecipe : Recipe) : List String :=
  let reasons : List String :=
    (if targetRecipe.cuisine = candidateRecipe.cuisine then
      ["Same cuisine (" ++ targetRecipe.cuisine ++ ")"] else [])
    ++ (if targetRecipe.category = candidateRecipe.category then
      ["Same category (" ++ targetRecipe.category ++ ")"] else [])
    ++ (if 0 < (commonTags targetRecipe candidateRecipe).length then
      ["Similar tags: " ++
        String.intercalate ", " ((commonTags targetRecipe candidateRecipe).take 3)]
      else [])
    ++ (if 0 < (commonIngredients targetRecipe candidateRecipe).length then
      ["Similar ingredients: " ++
        String.intercalate ", " ((commonIngredients targetRecipe candidateRecipe).take 2)]
      else [])
  if 0 < reasons.length then reasons else ["Similar recipe"]

/-- Stable descending sort by score, modelling
`recommendations.sort((a, b) => b.score - a.score)` (stable per ES2019;
`List.insertionSort` with `b.score ≤ a.score` inserts before equal scores
and is therefore the same stable descending sort). -/
def sortRecs (l : List RecommendationScore) : List RecommendationScore :=
  l.insertionSort (fun a b => b.score ≤ a.score)

/-- JS `l.slice(0, e)`: a negative end index counts from the end of the
list and is clamped at 0. -/
def jsSlice (l : List RecommendationScore) (e : Int) : List RecommendationScore :=
  if e < 0 then l.take ((l.length : Int) + e).toNat else l.take e.toNat

/-- The filtered, scored candidate sequence of
`RecipeRecommendationEngine.getRecommendations` before sorting: the pool
minus the target (`recipe.id !== targetRecipe.id`), each candidate scored
and explained, keeping those with `score > 0.1`. -/
def filteredCandidates (targetRecipe : Recipe) (allRecipes : List Recipe) :
    List RecommendationScore :=
  ((allRecipes.filter (fun r => decide (r.id ≠ targetRecipe.id))).map
    (fun candidateRecipe =>
      { recipe := candidateRecipe
        score := calculateSimilarity targetRecipe candidateRecipe
        reasons := generateReasons targetRecipe candidateRecipe })).filter
    (fun rec => decide ((0.1 : ℚ) < rec.score))

/-- `RecipeRecommendationEngine.getRecommendations`: filter out the target,
score, keep `score > 0.1`, sort descending by score, `slice(0, max)`. -/
def getRecommendations (targetRecipe : Recipe) (allRecipes : List Recipe)
    (maxRecommendations : Int) : List RecommendationScore :=
  jsSlice (sortRecs (filteredCandidates targetRecipe allRecipes))
    maxRecommendations

end RecipeRecommendationEngine

/-- Modelled from the spec: the lower-cased tag set of a recipe, as a finite
set of strings. -/
def tagFinset (r : Recipe) : Finset String := (r.tags.map jsToLower).toFinset

/-- Modelled from the spec: the lower-cased ingredient set of a recipe. -/
def ingredientFinset (r : Recipe) : Finset String :=
  (r.ingredients.map jsToLower).toFinset

/-- Modelled from the spec: the Jaccard ratio of two finite string sets,
`|A ∩ B| / |A ∪ B|`, defined as `0` when the union is empty. -/
def jaccardQ (A B : Finset String) : ℚ :=
  if A ∪ B = ∅ then 0 else ((A ∩ B).card : ℚ) / ((A ∪ B).card : ℚ)

/-- Modelled from the spec (§4.1): the weighted similarity score
`0.4·[cuisine match] + 0.3·[category match] + 0.2·Jaccard(tags) +
0.1·Jaccard(ingredients)`. -/
def scoreSpec (target candidate : Recipe) : ℚ :=
  (if target.cuisine = candidate.cuisine then (0.4 : ℚ) else 0)
  + (if target.category = candidate.category then (0.3 : ℚ) else 0)
  + 0.2 * jaccardQ (tagFinset target) (tagFinset candidate)
  + 0.1 * jaccardQ (ingredientFinset target) (ingredientFinset candidate)

/-- A sample target recipe used by the witness theorems. -/
def sampleTarget : Recipe :=
  ⟨"1", "t", [], [], "Italian", "Dessert", "", none, none, []⟩

/-- A sample candidate matching the target cuisine only. -/
def sampleMatch : Recipe :=
  ⟨"2", "c", [], [], "Italian", "Pasta", "", none, none, []⟩

/-- A second sample candidate matching the target category only. -/
def sampleMatch2 : Recipe :=
  ⟨"3", "d", [], [], "French", "Dessert", "", none, none, []⟩

/-- The recommendation entry produced for `sampleMatch`. -/
def sampleRec : RecommendationScore :=
  ⟨sampleMatch, 0.4, ["Same cuisine (Italian)"]⟩

section JsSetLemmas

/-- Membership in the `jsSetList` fold: an element is in the result iff it is
in the accumulator or in the remaining input. -/
lemma mem_jsSetFold (l : List String) : ∀ (acc : List String) (a : String),
    (a ∈ l.foldl (fun acc x => if x ∈ acc then acc else acc ++ [x]) acc) ↔
      a ∈ acc ∨ a ∈ l := by
  induction l with
  | nil => intro acc a; simp
  | cons x xs ih =>
    intro acc a
    rw [List.foldl_cons, ih]
    by_cases hx : x ∈ acc
    · simp only [if_pos hx, List.mem_cons]
      constructor
      · rintro (h | h)
        · exact Or.inl h
        · exact Or.inr (Or.inr h)
      · rintro (h | h | h)
        · exact Or.inl h
        · exact Or.inl (h ▸ hx)
        · exact Or.inr h
    · simp only [if_neg hx, List.mem_append, List.mem_singleton, List.mem_cons]
      tauto

/-- The `jsSetList` fold preserves the no-duplicates invariant. -/
lemma nodup_jsSetFold (l : List String) : ∀ acc : List String, acc.Nodup →
    (l.foldl (fun acc x => if x ∈ acc then acc else acc ++ [x]) acc).Nodup := by
  induction l with
  | nil => intro acc h; simpa using h
  | cons x xs ih =>
    intro acc h
    rw [List.foldl_cons]
    by_cases hx : x ∈ acc
    · rw [if_pos hx]; exact ih acc h
    · rw [if_neg hx]
      refine ih _ ?_
      rw [List.nodup_append]
      refine ⟨h, List.nodup_singleton x, ?_⟩
      intro a ha hb
      rw [List.mem_singleton] at hb
      exact hx (hb ▸ ha)

/-- `jsSetList` has the same members as its input. -/
lemma jsSetList_mem (l : List String) (a : String) :
    a ∈ jsSetList l ↔ a ∈ l := by
  rw [jsSetList, mem_jsSetFold]
  simp

/-- `jsSetList` has no duplicates: it models a JS `Set`. -/
lemma jsSetList_nodup (l : List String) : (jsSetList l).Nodup :=
  nodup_jsSetFold l [] List.nodup_nil

/-- A duplicate-free list whose members are exactly those of a finite set is
as long as the set's cardinality. -/
lemma length_eq_card (l : List String) (s : Finset String) (hn : l.Nodup)
    (hm : ∀ a, a ∈ l ↔ a ∈ s) : l.length = s.card := by
  have h1 : l.toFinset = s := by
    ext a
    rw [List.mem_toFinset, hm]
  rw [← h1, List.toFinset_card_of_nodup hn]

/-- Length of the JS set-intersection list in terms of `Finset` intersection. -/
lemma interLen (la lb : List String) :
    ((jsSetList la).filter (fun x => decide (x ∈ jsSetList lb))).length =
      (la.toFinset ∩ lb.toFinset).card := by
  refine length_eq_card _ _ ((jsSetList_nodup la).filter _) ?_
  intro a
  simp only [List.mem_filter, decide_eq_true_eq, jsSetList_mem, Finset.mem_inter,
    List.mem_toFinset]

/-- Length of the JS set-union list in terms of `Finset` union. -/
lemma unionLen (la lb : List String) :
    (jsSetList (jsSetList la ++ jsSetList lb)).length =
      (la.toFinset ∪ lb.toFinset).card := by
  refine length_eq_card _ _ (jsSetList_nodup _) ?_
  intro a
  simp only [jsSetList_mem, List.mem_append, Finset.mem_union, List.mem_toFinset]

end JsSetLemmas

section SpecBridgeLemmas

open RecipeRecommendationEngine

/-- The ordered intersection list has the cardinality of the tag-set
intersection. -/
lemma commonTags_length (t c : Recipe) :
    (commonTags t c).length = (tagFinset t ∩ tagFinset c).card :=
  interLen (t.tags.map jsToLower) (c.tags.map jsToLower)

/-- The union list has the cardinality of the tag-set union. -/
lemma tagUnionList_length (t c : Recipe) :
    (tagUnionList t c).length = (tagFinset t ∪ tagFinset c).card :=
  unionLen (t.tags.map jsToLower) (c.tags.map jsToLower)

/-- The ordered intersection list has the cardinality of the ingredient-set
intersection. -/
lemma commonIngredients_length (t c : Recipe) :
    (commonIngredients t c).length = (ingredientFinset t ∩ ingredientFinset c).card :=
  interLen (t.ingredients.map jsToLower) (c.ingredients.map jsToLower)

/-- The union list has the cardinality of the ingredient-set union. -/
lemma ingredientUnionList_length (t c : Recipe) :
    (ingredientUnionList t c).length = (ingredientFinset t ∪ ingredientFinset c).card :=
  unionLen (t.ingredients.map jsToLower) (c.ingredients.map jsToLower)

/-- One guarded Jaccard addend of the scorer equals weight times the spec
Jaccard ratio. -/
lemma jaccardAddend (i u : ℕ) (A B : Finset String)
    (hi : i = (A ∩ B).card) (hu : u = (A ∪ B).card) (w : ℚ) :
    (if 0 < u then ((i : ℚ) / (u : ℚ)) * w else 0) = w * jaccardQ A B := by
  subst hi hu
  rw [jaccardQ]
  by_cases h : A ∪ B = ∅
  · rw [if_pos h, if_neg, mul_zero]
    simp [h]
  · rw [if_neg h, if_pos, mul_comm]
    exact Finset.card_pos.mpr (Finset.nonempty_iff_ne_empty.mpr h)

/-- The implemented scorer computes exactly the spec score. -/
lemma calculateSimilarity_eq_scoreSpec (t c : Recipe) :
    calculateSimilarity t c = scoreSpec t c := by
  rw [calculateSimilarity, scoreSpec,
    jaccardAddend _ _ _ _ (commonTags_length t c) (tagUnionList_length t c),
    jaccardAddend _ _ _ _ (commonIngredients_length t c) (ingredientUnionList_length t c)]

/-- The Jaccard ratio is non-negative. -/
lemma jaccardQ_nonneg (A B : Finset String) : 0 ≤ jaccardQ A B := by
  rw [jaccardQ]
  split
  · exact le_refl 0
  · positivity

/-- The Jaccard ratio is at most one. -/
lemma jaccardQ_le_one (A B : Finset String) : jaccardQ A B ≤ 1 := by
  rw [jaccardQ]
  split
  · norm_num
  · rename_i h
    have hc : (A ∩ B).card ≤ (A ∪ B).card :=
      Finset.card_le_card (Finset.inter_subset_left.trans Finset.subset_union_left)
    have hu : (0 : ℚ) < ((A ∪ B).card : ℚ) := by
      exact_mod_cast Finset.card_pos.mpr (Finset.nonempty_iff_ne_empty.mpr h)
    rw [div_le_one hu]
    exact_mod_cast hc

/-- The Jaccard ratio equals one exactly for equal non-empty sets. -/
lemma jaccardQ_eq_one_iff (A B : Finset String) :
    jaccardQ A B = 1 ↔ A = B ∧ A.Nonempty := by
  rw [jaccardQ]
  constructor
  · intro h
    by_cases he : A ∪ B = ∅
    · rw [if_pos he] at h
      norm_num at h
    · rw [if_neg he] at h
      have hu : (0 : ℚ) < ((A ∪ B).card : ℚ) := by
        exact_mod_cast Finset.card_pos.mpr (Finset.nonempty_iff_ne_empty.mpr he)
      rw [div_eq_one_iff_eq (ne_of_gt hu)] at h
      have hc : (A ∪ B).card ≤ (A ∩ B).card := by exact_mod_cast h.ge
      have heq : A ∩ B = A ∪ B :=
        Finset.eq_of_subset_of_card_le
          (Finset.inter_subset_left.trans Finset.subset_union_left) hc
      have hAB : A = B := by
        apply Finset.Subset.antisymm
        · intro a ha
          have : a ∈ A ∩ B := heq ▸ Finset.mem_union_left B ha
          exact (Finset.mem_inter.mp this).2
        · intro a ha
          have : a ∈ A ∩ B := heq ▸ Finset.mem_union_right A ha
          exact (Finset.mem_inter.mp this).1
      subst hAB
      refine ⟨rfl, ?_⟩
      rw [Finset.union_self] at he
      exact Finset.nonempty_iff_ne_empty.mpr he
  · rintro ⟨rfl, hne⟩
    rw [Finset.union_self, Finset.inter_self, if_neg (Finset.nonempty_iff_ne_empty.mp hne)]
    have : ((A.card : ℚ)) ≠ 0 := by
      exact_mod_cast Finset.card_ne_zero_of_mem hne.choose_spec
    exact div_self this

end SpecBridgeLemmas

section ScoreLemmas

open RecipeRecommendationEngine

/-- The spec score is non-negative. -/
lemma scoreSpec_nonneg (t c : Recipe) : 0 ≤ scoreSpec t c := by
  have h1 := jaccardQ_nonneg (tagFinset t) (tagFinset c)
  have h2 := jaccardQ_nonneg (ingredientFinset t) (ingredientFinset c)
  rw [scoreSpec]
  split_ifs <;> linarith

/-- The spec score is at most one. -/
lemma scoreSpec_le_one (t c : Recipe) : scoreSpec t c ≤ 1 := by
  have h1 := jaccardQ_le_one (tagFinset t) (tagFinset c)
  have h2 := jaccardQ_le_one (ingredientFinset t) (ingredientFinset c)
  rw [scoreSpec]
  split_ifs <;> linarith

/-- The spec score reaches one exactly when cuisine and category match and
the lower-cased tag and ingredient sets are equal and non-empty. -/
lemma scoreSpec_eq_one_iff (t c : Recipe) :
    scoreSpec t c = 1 ↔
      t.cuisine = c.cuisine ∧ t.category = c.category ∧
      tagFinset t = tagFinset c ∧ (tagFinset t).Nonempty ∧
      ingredientFinset t = ingredientFinset c ∧ (ingredientFinset t).Nonempty := by
  have hj1 := jaccardQ_nonneg (tagFinset t) (tagFinset c)
  have hj2 := jaccardQ_le_one (tagFinset t) (tagFinset c)
  have hj3 := jaccardQ_nonneg (ingredientFinset t) (ingredientFinset c)
  have hj4 := jaccardQ_le_one (ingredientFinset t) (ingredientFinset c)
  rw [scoreSpec]
  constructor
  · intro h
    by_cases h1 : t.cuisine = c.cuisine
    · by_cases h2 : t.category = c.category
      · rw [if_pos h1, if_pos h2] at h
        have e1 : jaccardQ (tagFinset t) (tagFinset c) = 1 := by linarith
        have e2 : jaccardQ (ingredientFinset t) (ingredientFinset c) = 1 := by linarith
        rw [jaccardQ_eq_one_iff] at e1 e2
        exact ⟨h1, h2, e1.1, e1.2, e2.1, e2.2⟩
      · rw [if_pos h1, if_neg h2] at h
        linarith
    · have h2 : (if t.category = c.category then (0.3 : ℚ) else 0) ≤ 0.3 := by
        split_ifs <;> norm_num
      rw [if_neg h1] at h
      linarith
  · rintro ⟨h1, h2, h3, h4, h5, h6⟩
    rw [if_pos h1, if_pos h2, (jaccardQ_eq_one_iff _ _).mpr ⟨h3, h4⟩,
      (jaccardQ_eq_one_iff _ _).mpr ⟨h5, h6⟩]
    norm_num

/-- The Jaccard ratio is symmetric in its arguments. -/
lemma jaccardQ_comm (A B : Finset String) : jaccardQ A B = jaccardQ B A := by
  rw [jaccardQ, jaccardQ, Finset.union_comm, Finset.inter_comm]

/-- The spec score is symmetric in its two recipes. -/
lemma scoreSpec_symm (A B : Recipe) : scoreSpec A B = scoreSpec B A := by
  have e1 : (if A.cuisine = B.cuisine then (0.4 : ℚ) else 0) =
      (if B.cuisine = A.cuisine then (0.4 : ℚ) else 0) := by
    by_cases h : A.cuisine = B.cuisine
    · rw [if_pos h, if_pos h.symm]
    · rw [if_neg h, if_neg (fun hh => h hh.symm)]
  have e2 : (if A.category = B.category then (0.3 : ℚ) else 0) =
      (if B.category = A.category then (0.3 : ℚ) else 0) := by
    by_cases h : A.category = B.category
    · rw [if_pos h, if_pos h.symm]
    · rw [if_neg h, if_neg (fun hh => h hh.symm)]
  rw [scoreSpec, scoreSpec, e1, e2, jaccardQ_comm (tagFinset A) (tagFinset B),
    jaccardQ_comm (ingredientFinset A) (ingredientFinset B)]

end ScoreLemmas

section ReasonLemmas

open RecipeRecommendationEngine

/-- A cuisine reason string is never the fallback string. -/
lemma cuisineReason_ne (s : String) :
    "Same cuisine (" ++ s ++ ")" ≠ "Similar recipe" := by
  intro h
  have h2 : (("Same cuisine (" ++ s ++ ")").data.take 9) =
      "Similar recipe".data.take 9 := by rw [h]
  have h3 : (['S', 'a', 'm', 'e', ' ', 'c', 'u', 'i', 's'] : List Char) =
      ['S', 'i', 'm', 'i', 'l', 'a', 'r', ' ', 'r'] := h2
  exact absurd h3 (by decide)

/-- A category reason string is never the fallback string. -/
lemma categoryReason_ne (s : String) :
    "Same category (" ++ s ++ ")" ≠ "Similar recipe" := by
  intro h
  have h2 : (("Same category (" ++ s ++ ")").data.take 9) =
      "Similar recipe".data.take 9 := by rw [h]
  have h3 : (['S', 'a', 'm', 'e', ' ', 'c', 'a', 't', 'e'] : List Char) =
      ['S', 'i', 'm', 'i', 'l', 'a', 'r', ' ', 'r'] := h2
  exact absurd h3 (by decide)

/-- A tags reason string is never the fallback string. -/
lemma tagsReason_ne (s : String) :
    "Similar tags: " ++ s ≠ "Similar recipe" := by
  intro h
  have h2 : (("Similar tags: " ++ s).data.take 9) =
      "Similar recipe".data.take 9 := by rw [h]
  have h3 : (['S', 'i', 'm', 'i', 'l', 'a', 'r', ' ', 't'] : List Char) =
      ['S', 'i', 'm', 'i', 'l', 'a', 'r', ' ', 'r'] := h2
  exact absurd h3 (by decide)

/-- An ingredients reason string is never the fallback string. -/
lemma ingredientsReason_ne (s : String) :
    "Similar ingredients: " ++ s ≠ "Similar recipe" := by
  intro h
  have h2 : (("Similar ingredients: " ++ s).data.take 9) =
      "Similar recipe".data.take 9 := by rw [h]
  have h3 : (['S', 'i', 'm', 'i', 'l', 'a', 'r', ' ', 'i'] : List Char) =
      ['S', 'i', 'm', 'i', 'l', 'a', 'r', ' ', 'r'] := h2
  exact absurd h3 (by decide)

/-- A score above the threshold forces at least one matching factor. -/
lemma factor_of_score (t c : Recipe) (h : (0.1 : ℚ) < calculateSimilarity t c) :
    t.cuisine = c.cuisine ∨ t.category = c.category ∨
      commonTags t c ≠ [] ∨ commonIngredients t c ≠ [] := by
  by_contra hno
  push_neg at hno
  obtain ⟨h1, h2, h3, h4⟩ := hno
  rw [calculateSimilarity, if_neg h1, if_neg h2, h3, h4] at h
  simp at h
  norm_num at h

/-- With at least one matching factor, the reason list is not the fallback
singleton. -/
lemma reasons_ne_fallback (t c : Recipe)
    (hfac : t.cuisine = c.cuisine ∨ t.category = c.category ∨
      commonTags t c ≠ [] ∨ commonIngredients t c ≠ []) :
    generateReasons t c ≠ ["Similar recipe"] := by
  by_cases h1 : t.cuisine = c.cuisine <;>
    by_cases h2 : t.category = c.category <;>
      by_cases h3 : 0 < (commonTags t c).length <;>
        by_cases h4 : 0 < (commonIngredients t c).length <;>
          simp_all [generateReasons, cuisineReason_ne, categoryReason_ne,
            tagsReason_ne, ingredientsReason_ne, List.length_pos]

end ReasonLemmas

section RankerLemmas

open RecipeRecommendationEngine

/-- Decomposition of membership in the filtered candidate sequence. -/
lemma mem_filteredCandidates (t : Recipe) (pool : List Recipe)
    (r : RecommendationScore) (h : r ∈ filteredCandidates t pool) :
    (0.1 : ℚ) < r.score ∧ r.recipe.id ≠ t.id ∧
      r.score = calculateSimilarity t r.recipe ∧
      r.reasons = generateReasons t r.recipe := by
  rw [filteredCandidates, List.mem_filter] at h
  obtain ⟨hmap, hsc⟩ := h
  rw [List.mem_map] at hmap
  obtain ⟨c, hc, rfl⟩ := hmap
  rw [List.mem_filter] at hc
  simp only [decide_eq_true_eq] at hsc hc
  exact ⟨hsc, hc.2, rfl, rfl⟩

/-- Every returned recommendation comes from the filtered candidate
sequence. -/
lemma mem_of_mem_getRecommendations (t : Recipe) (pool : List Recipe)
    (lim : Int) (r : RecommendationScore) (h : r ∈ getRecommendations t pool lim) :
    r ∈ filteredCandidates t pool := by
  rw [getRecommendations] at h
  have h1 : r ∈ sortRecs (filteredCandidates t pool) := by
    rw [jsSlice] at h
    split at h <;> exact List.take_subset _ _ h
  rw [sortRecs] at h1
  exact (List.mem_insertionSort _).mp h1

/-- The stable sort produces a score-descending sequence. -/
lemma sortRecs_sorted (l : List RecommendationScore) :
    (sortRecs l).Pairwise (fun a b => b.score ≤ a.score) := by
  have h := @List.sorted_insertionSort RecommendationScore
    (fun a b => b.score ≤ a.score) _
    ⟨fun a b => le_total b.score a.score⟩
    ⟨fun a b c h1 h2 => le_trans h2 h1⟩ l
  exact h

/-- Filtering by an exact score commutes with `orderedInsert`: the inserted
element lands after every element of larger score and before every element
of equal score. -/
lemma filter_orderedInsert (s : ℚ) (a : RecommendationScore) :
    ∀ L : List RecommendationScore,
      ((List.orderedInsert (fun a b => b.score ≤ a.score) a L).filter
        (fun x => decide (x.score = s))) =
      if a.score = s then
        a :: L.filter (fun x => decide (x.score = s))
      else L.filter (fun x => decide (x.score = s)) := by
  intro L
  induction L with
  | nil => by_cases ha : a.score = s <;> simp [List.orderedInsert, ha]
  | cons y ys ih =>
    rw [List.orderedInsert]
    by_cases hr : y.score ≤ a.score
    · rw [if_pos hr]
      by_cases ha : a.score = s <;> simp [List.filter_cons, ha]
    · rw [if_neg hr]
      rw [List.filter_cons, ih]
      by_cases ha : a.score = s
      · have hy : ¬(y.score = s) := by
          intro hy
          exact hr (le_of_eq (ha ▸ hy))
        rw [if_pos ha, if_pos ha, List.filter_cons]
        simp [hy]
      · rw [if_neg ha, if_neg ha, List.filter_cons]

/-- Stability of the sort: the subsequence at any fixed score is unchanged
by sorting. -/
lemma filter_insertionSortRecs (s : ℚ) :
    ∀ l : List RecommendationScore,
      ((List.insertionSort (fun a b => b.score ≤ a.score) l).filter
        (fun x => decide (x.score = s))) =
      l.filter (fun x => decide (x.score = s)) := by
  intro l
  induction l with
  | nil => rfl
  | cons a l ih =>
    simp only [List.insertionSort]
    rw [filter_orderedInsert, List.filter_cons]
    by_cases ha : a.score = s
    · rw [if_pos ha, ih, if_pos (by simp [ha])]
    · rw [if_neg ha, ih, if_neg (by simp [ha])]

/-- Filtering a prefix (`take`) yields a prefix of the filtered list. -/
lemma filterTakePre (p : RecommendationScore → Bool) :
    ∀ (n : ℕ) (l : List RecommendationScore),
      (l.take n).filter p <+: l.filter p := by
  intro n l
  induction l generalizing n with
  | nil => simp
  | cons a l ih =>
    cases n with
    | zero => exact ⟨_, List.nil_append _⟩
    | succ n =>
      rw [List.take_succ_cons, List.filter_cons, List.filter_cons]
      by_cases hp : p a = true
      · rw [if_pos hp, if_pos hp]
        obtain ⟨u, hu⟩ := ih n
        exact ⟨u, by rw [List.cons_append, hu]⟩
      · rw [if_neg hp, if_neg hp]
        exact ih n

/-- `jsSlice` is always a `take`. -/
lemma jsSlice_eq_take (l : List RecommendationScore) (e : Int) :
    ∃ n : ℕ, jsSlice l e = l.take n := by
  rw [jsSlice]
  split
  · exact ⟨_, rfl⟩
  · exact ⟨_, rfl⟩

end RankerLemmas

section SampleData

open RecipeRecommendationEngine

/-- Concrete evaluation of the engine on the sample data. -/
lemma sampleEval : getRecommendations sampleTarget [sampleMatch] 6 = [sampleRec] := by
  simp +decide [getRecommendations, jsSlice, sortRecs, filteredCandidates,
    calculateSimilarity, generateReasons, commonTags, commonIngredients,
    tagUnionList, ingredientUnionList, lowerTags, lowerIngredients, jsSetList,
    jsToLower, List.insertionSort, List.orderedInsert, sampleTarget, sampleMatch,
    sampleRec]
  norm_num

/-- Membership of the sample entry in the sample result. -/
lemma sampleMem : sampleRec ∈ getRecommendations sampleTarget [sampleMatch] 6 := by
  rw [sampleEval]
  exact List.mem_singleton.mpr rfl

end SampleData

open RecipeRecommendationEngine

/-- C1: for every pair of recipes, `score(target, candidate)` is 0.4 on a
case-sensitive cuisine match plus 0.3 on a category match plus 0.2 times the
Jaccard ratio of the lower-cased tag sets plus 0.1 times the Jaccard ratio
of the lower-cased ingredient sets, each ratio being 0 on an empty union. -/
theorem spec_c1_score_formula (t c : Recipe) :
    calculateSimilarity t c = scoreSpec t c :=
  calculateSimilarity_eq_scoreSpec t c

/-- C2: every entry of the result of `getRecommendations` has score strictly
greater than 0.1; a candidate scoring exactly 0.1 is filtered out. -/
theorem spec_c2_threshold (t : Recipe) (pool : List Recipe) (lim : Int)
    (r : RecommendationScore) (h : r ∈ getRecommendations t pool lim) :
    (0.1 : ℚ) < r.score :=
  (mem_filteredCandidates t pool r
    (mem_of_mem_getRecommendations t pool lim r h)).1

/-- Witness for C2 on concrete sample data. -/
theorem spec_c2_threshold_witness :
    sampleRec ∈ getRecommendations sampleTarget [sampleMatch] 6 ∧
      (0.1 : ℚ) < sampleRec.score :=
  ⟨sampleMem, spec_c2_threshold sampleTarget [sampleMatch] 6 sampleRec sampleMem⟩

/-- C3: the scores of the result are non-increasing, and the entries at any
fixed score form a prefix of the equal-score entries of the filtered
candidate sequence, i.e. ties keep their filtered-sequence order. -/
theorem spec_c3_ordering (t : Recipe) (pool : List Recipe) (lim : Int) :
    (getRecommendations t pool lim).Pairwise (fun a b => b.score ≤ a.score) ∧
    ∀ s : ℚ,
      (getRecommendations t pool lim).filter (fun r => decide (r.score = s)) <+:
        (filteredCandidates t pool).filter (fun r => decide (r.score = s)) := by
  obtain ⟨n, hn⟩ := jsSlice_eq_take (sortRecs (filteredCandidates t pool)) lim
  constructor
  · rw [getRecommendations, hn]
    exact List.Pairwise.sublist (List.take_sublist _ _) (sortRecs_sorted _)
  · intro s
    rw [getRecommendations, hn]
    have h1 := filterTakePre (fun r => decide (r.score = s)) n
      (sortRecs (filteredCandidates t pool))
    have h2 : (sortRecs (filteredCandidates t pool)).filter
        (fun r => decide (r.score = s)) =
        (filteredCandidates t pool).filter (fun r => decide (r.score = s)) := by
      rw [sortRecs]
      exact filter_insertionSortRecs s (filteredCandidates t pool)
    rw [h2] at h1
    exact h1

/-- Counterexample for C4: at `limit = -1` with two qualifying candidates the
result is non-empty and longer than the limit, contradicting the claim that
any `limit ≤ 0` yields an empty sequence. -/
theorem spec_c4_counterexample :
    getRecommendations sampleTarget [sampleMatch, sampleMatch2] (-1) ≠ [] ∧
      ¬(((getRecommendations sampleTarget [sampleMatch, sampleMatch2] (-1)).length : Int) ≤ -1) := by
  have hv : (getRecommendations sampleTarget [sampleMatch, sampleMatch2] (-1)).map
      (fun r => r.recipe.id) = ["2"] := by
    simp +decide [getRecommendations, jsSlice, sortRecs, filteredCandidates,
      calculateSimilarity, generateReasons, commonTags, commonIngredients,
      tagUnionList, ingredientUnionList, lowerTags, lowerIngredients, jsSetList,
      jsToLower, List.insertionSort, List.orderedInsert, sampleTarget,
      sampleMatch, sampleMatch2]
    norm_num
  have hl : (getRecommendations sampleTarget [sampleMatch, sampleMatch2] (-1)).length = 1 := by
    have h := congrArg List.length hv
    simpa using h
  constructor
  · intro h
    rw [h] at hl
    simp at hl
  · rw [hl]
    norm_num

/-- C4 (amended): for every non-negative integer limit the result is the
first `limit` entries of the sorted sequence, hence has length at most
`limit`, and `limit = 0` yields the empty sequence; for negative limits the
code follows JS `slice` semantics and may return a non-empty sequence. -/
theorem spec_c4_truncation (t : Recipe) (pool : List Recipe) (lim : Int)
    (hlim : 0 ≤ lim) :
    getRecommendations t pool lim =
        (sortRecs (filteredCandidates t pool)).take lim.toNat ∧
      ((getRecommendations t pool lim).length : Int) ≤ lim ∧
      (lim = 0 → getRecommendations t pool lim = []) := by
  have he : getRecommendations t pool lim =
      (sortRecs (filteredCandidates t pool)).take lim.toNat := by
    rw [getRecommendations, jsSlice, if_neg (not_lt.mpr hlim)]
  refine ⟨he, ?_, ?_⟩
  · rw [he]
    have h1 : ((sortRecs (filteredCandidates t pool)).take lim.toNat).length ≤
        lim.toNat := List.length_take_le _ _
    have h2 : (((sortRecs (filteredCandidates t pool)).take lim.toNat).length : Int) ≤
        (lim.toNat : Int) := Int.ofNat_le.mpr h1
    rwa [Int.toNat_of_nonneg hlim] at h2
  · intro h0
    subst h0
    rw [he]
    simp

/-- Witness for C4 (amended) at `limit = 0`. -/
theorem spec_c4_truncation_witness :
    getRecommendations sampleTarget [sampleMatch] 0 = [] ∧
      ((getRecommendations sampleTarget [sampleMatch] 0).length : Int) ≤ 0 :=
  ⟨(spec_c4_truncation sampleTarget [sampleMatch] 0 (by norm_num)).2.2 rfl,
    (spec_c4_truncation sampleTarget [sampleMatch] 0 (by norm_num)).2.1⟩

/-- Counterexample for C5: with target tag "Sweet" and candidate tag "SWEET"
the emitted reason shows the lower-cased spelling "sweet", not the target's
original casing "Sweet". -/
theorem spec_c5_counterexample :
    generateReasons ⟨"1", "t", [], [], "A", "B", "", none, none, ["Sweet"]⟩
        ⟨"2", "c", [], [], "X", "Y", "", none, none, ["SWEET"]⟩ =
      ["Similar tags: sweet"] ∧
    generateReasons ⟨"1", "t", [], [], "A", "B", "", none, none, ["Sweet"]⟩
        ⟨"2", "c", [], [], "X", "Y", "", none, none, ["SWEET"]⟩ ≠
      ["Similar tags: Sweet"] := by
  constructor
  · decide
  · decide

/-- C5 (amended): when the case-insensitive tag (resp. ingredient)
intersection is non-empty, `generateReasons` emits the comma-join of the
first 3 (resp. 2) intersecting entries, and those entries are the
lower-cased forms of the target's tags (resp. ingredients), not the
original spellings. -/
theorem spec_c5_reason_casing (t c : Recipe) :
    (commonTags t c ≠ [] →
      ("Similar tags: " ++ String.intercalate ", " ((commonTags t c).take 3)) ∈
        generateReasons t c) ∧
    (commonIngredients t c ≠ [] →
      ("Similar ingredients: " ++
          String.intercalate ", " ((commonIngredients t c).take 2)) ∈
        generateReasons t c) ∧
    (∀ x ∈ commonTags t c, ∃ g ∈ t.tags, x = jsToLower g) ∧
    (∀ x ∈ commonIngredients t c, ∃ g ∈ t.ingredients, x = jsToLower g) := by
  refine ⟨?_, ?_, ?_, ?_⟩
  · intro h
    have h3 : 0 < (commonTags t c).length := List.length_pos.mpr h
    simp only [generateReasons, if_pos h3]
    rw [if_pos (by simp)]
    simp
  · intro h
    have h4 : 0 < (commonIngredients t c).length := List.length_pos.mpr h
    simp only [generateReasons, if_pos h4]
    rw [if_pos (by simp)]
    simp
  · intro x hx
    have h1 : x ∈ lowerTags t := (List.mem_filter.mp hx).1
    rw [lowerTags, jsSetList_mem, List.mem_map] at h1
    obtain ⟨g, hg, hgx⟩ := h1
    exact ⟨g, hg, hgx.symm⟩
  · intro x hx
    have h1 : x ∈ lowerIngredients t := (List.mem_filter.mp hx).1
    rw [lowerIngredients, jsSetList_mem, List.mem_map] at h1
    obtain ⟨g, hg, hgx⟩ := h1
    exact ⟨g, hg, hgx.symm⟩

/-- Witness for C5 (amended) on concrete data with tags "Sweet" / "SWEET"
and ingredients "Flour" / "FLOUR". -/
theorem spec_c5_reason_casing_witness :
    ("Similar tags: sweet" ∈
      generateReasons ⟨"1", "t", ["Flour"], [], "A", "B", "", none, none, ["Sweet"]⟩
        ⟨"2", "c", ["FLOUR"], [], "X", "Y", "", none, none, ["SWEET"]⟩) ∧
    ("Similar ingredients: flour" ∈
      generateReasons ⟨"1", "t", ["Flour"], [], "A", "B", "", none, none, ["Sweet"]⟩
        ⟨"2", "c", ["FLOUR"], [], "X", "Y", "", none, none, ["SWEET"]⟩) := by
  have h := spec_c5_reason_casing
    ⟨"1", "t", ["Flour"], [], "A", "B", "", none, none, ["Sweet"]⟩
    ⟨"2", "c", ["FLOUR"], [], "X", "Y", "", none, none, ["SWEET"]⟩
  refine ⟨?_, ?_⟩
  · have h1 := h.1 (by decide)
    have e : ("Similar tags: " ++ String.intercalate ", "
        ((commonTags ⟨"1", "t", ["Flour"], [], "A", "B", "", none, none, ["Sweet"]⟩
          ⟨"2", "c", ["FLOUR"], [], "X", "Y", "", none, none, ["SWEET"]⟩).take 3)) =
        "Similar tags: sweet" := by decide
    rwa [e] at h1
  · have h2 := h.2.1 (by decide)
    have e : ("Similar ingredients: " ++ String.intercalate ", "
        ((commonIngredients ⟨"1", "t", ["Flour"], [], "A", "B", "", none, none, ["Sweet"]⟩
          ⟨"2", "c", ["FLOUR"], [], "X", "Y", "", none, none, ["SWEET"]⟩).take 2)) =
        "Similar ingredients: flour" := by decide
    rwa [e] at h2

/-- C6: no returned entry has the target's id: the pool entry equal to the
target by id is excluded before scoring. -/
theorem spec_c6_exclusion (t : Recipe) (pool : List Recipe) (lim : Int)
    (r : RecommendationScore) (h : r ∈ getRecommendations t pool lim) :
    r.recipe.id ≠ t.id :=
  (mem_filteredCandidates t pool r
    (mem_of_mem_getRecommendations t pool lim r h)).2.1

/-- Witness for C6 on concrete sample data. -/
theorem spec_c6_exclusion_witness :
    sampleRec ∈ getRecommendations sampleTarget [sampleMatch] 6 ∧
      sampleRec.recipe.id ≠ sampleTarget.id :=
  ⟨sampleMem, spec_c6_exclusion sampleTarget [sampleMatch] 6 sampleRec sampleMem⟩

/-- C7: the score always lies in [0, 1], and equals 1 exactly when cuisine
and category match and the lower-cased tag and ingredient sets agree and
are non-empty. -/
theorem spec_c7_bounds (t c : Recipe) :
    (0 ≤ calculateSimilarity t c ∧ calculateSimilarity t c ≤ 1) ∧
    (calculateSimilarity t c = 1 ↔
      t.cuisine = c.cuisine ∧ t.category = c.category ∧
      tagFinset t = tagFinset c ∧ (tagFinset t).Nonempty ∧
      ingredientFinset t = ingredientFinset c ∧ (ingredientFinset t).Nonempty) := by
  rw [calculateSimilarity_eq_scoreSpec]
  exact ⟨⟨scoreSpec_nonneg t c, scoreSpec_le_one t c⟩, scoreSpec_eq_one_iff t c⟩

/-- C8: the reason list is never empty, follows the fixed factor order with
each reason present exactly when its factor matches, and is exactly the
fallback singleton when no factor matches. -/
theorem spec_c8_reason_structure (t c : Recipe) :
    generateReasons t c ≠ [] ∧
    generateReasons t c =
      (if t.cuisine = c.cuisine ∨ t.category = c.category ∨
          commonTags t c ≠ [] ∨ commonIngredients t c ≠ [] then
        (if t.cuisine = c.cuisine then
          ["Same cuisine (" ++ t.cuisine ++ ")"] else [])
        ++ (if t.category = c.category then
          ["Same category (" ++ t.category ++ ")"] else [])
        ++ (if commonTags t c ≠ [] then
          ["Similar tags: " ++
            String.intercalate ", " ((commonTags t c).take 3)] else [])
        ++ (if commonIngredients t c ≠ [] then
          ["Similar ingredients: " ++
            String.intercalate ", " ((commonIngredients t c).take 2)] else [])
      else ["Similar recipe"]) := by
  by_cases h1 : t.cuisine = c.cuisine <;>
    by_cases h2 : t.category = c.category <;>
      by_cases h3 : commonTags t c = [] <;>
        by_cases h4 : commonIngredients t c = [] <;>
          simp [generateReasons, h1, h2, h3, h4, List.length_pos]

/-- C9: the similarity score is symmetric in its two recipe arguments. -/
theorem spec_c9_symmetry (A B : Recipe) :
    calculateSimilarity A B = calculateSimilarity B A := by
  rw [calculateSimilarity_eq_scoreSpec, calculateSimilarity_eq_scoreSpec,
    scoreSpec_symm]

/-- C10: no returned entry carries the fallback reason list: a score above
the threshold forces a matching factor, so the fallback branch is
unreachable for returned candidates. -/
theorem spec_c10_no_fallback (t : Recipe) (pool : List Recipe) (lim : Int)
    (r : RecommendationScore) (h : r ∈ getRecommendations t pool lim) :
    r.reasons ≠ ["Similar recipe"] := by
  obtain ⟨hs, hid, hscore, hreason⟩ :=
    mem_filteredCandidates t pool r (mem_of_mem_getRecommendations t pool lim r h)
  rw [hreason]
  exact reasons_ne_fallback t r.recipe (factor_of_score t r.recipe (hscore ▸ hs))

/-- Witness for C10 on concrete sample data. -/
theorem spec_c10_no_fallback_witness :
    sampleRec ∈ getRecommendations sampleTarget [sampleMatch] 6 ∧
      sampleRec.reasons ≠ ["Similar recipe"] :=
  ⟨sampleMem, spec_c10_no_fallback sampleTarget [sampleMatch] 6 sampleRec sampleMem⟩
